import Mathlib

/-!
Formal model of the telemetry reader module of the Telemetry repository
(src/telemetry_api/telemetry_readers.py), as a shallow embedding:
Python floats are modelled as rationals, Python ints as integers,
optional values as `Option`, and file/command inputs as explicit
arguments (`none` = the file is missing / the command failed).
-/

namespace Telemetry

/-! ### Python primitive operations -/

/-- Round-half-to-even of a rational to an integer, modelling the tie
behaviour of Python's builtin `round`. -/
def roundHalfEven (x : ℚ) : ℤ :=
  let f := ⌊x⌋
  if x - f < 1/2 then f
  else if 1/2 < x - f then f + 1
  else if f % 2 = 0 then f else f + 1

/-- Python `round(x, n)` on the rational model of floats. -/
def pyRound (n : ℕ) (x : ℚ) : ℚ :=
  (roundHalfEven (x * 10 ^ n) : ℚ) / 10 ^ n

/-- Value of a decimal digit run (`none` when a non-digit occurs). -/
def digitsVal : List Char → ℕ → Option ℕ
  | [], acc => some acc
  | c :: cs, acc =>
    if c.isDigit then digitsVal cs (acc * 10 + (c.toNat - 48)) else none

/-- Nonempty run of decimal digits. -/
def parseDigits (cs : List Char) : Option ℕ :=
  if cs.isEmpty then none else digitsVal cs 0

/-- Optional sign followed by decimal digits. -/
def pyIntOfChars : List Char → Option ℤ
  | [] => none
  | c :: cs =>
    if c = '-' then (parseDigits cs).map (fun n => -(n : ℤ))
    else if c = '+' then (parseDigits cs).map (fun n => (n : ℤ))
    else (parseDigits (c :: cs)).map (fun n => (n : ℤ))

/-- Whitespace test used by Python's `strip`/`split`. -/
def pyWs (c : Char) : Bool := c.isWhitespace

/-- Python `s.strip()`. -/
def pyStrip (s : String) : String :=
  String.mk (((s.data.dropWhile pyWs).reverse.dropWhile pyWs).reverse)

/-- Python `int(s)`: surrounding whitespace stripped, optional sign,
decimal digits (underscore separators are not modelled). -/
def pyInt (s : String) : Option ℤ := pyIntOfChars (pyStrip s).data

/-- Fractional digit run value: `digits / 10 ^ len`. -/
def fracVal (cs : List Char) : Option ℚ :=
  (digitsVal cs 0).map (fun n => (n : ℚ) / 10 ^ cs.length)

/-- Unsigned Python float literal: `digits`, `digits.`, `.digits` or
`digits.digits` (exponents and inf/nan are not modelled). -/
def pyFloatOfChars (cs : List Char) : Option ℚ :=
  let ip := cs.takeWhile Char.isDigit
  let rest := cs.dropWhile Char.isDigit
  match rest with
  | [] => (parseDigits ip).map (fun n => (n : ℚ))
  | '.' :: fp =>
    if ip.isEmpty ∧ fp.isEmpty then none
    else
      match digitsVal ip 0, fracVal fp with
      | some i, some f => some ((i : ℚ) + f)
      | _, _ => none
  | _ => none

/-- Optional sign in front of a float literal. -/
def pyFloatSigned : List Char → Option ℚ
  | [] => none
  | c :: cs =>
    if c = '-' then (pyFloatOfChars cs).map (fun q => -q)
    else if c = '+' then pyFloatOfChars cs
    else pyFloatOfChars (c :: cs)

/-- Python `float(s)` on the rational model of floats. -/
def pyFloat (s : String) : Option ℚ := pyFloatSigned (pyStrip s).data

/-- Value of a hexadecimal digit. -/
def hexVal (c : Char) : Option ℕ :=
  if c.isDigit then some (c.toNat - 48)
  else if 'a' ≤ c ∧ c ≤ 'f' then some (c.toNat - 87)
  else if 'A' ≤ c ∧ c ≤ 'F' then some (c.toNat - 55)
  else none

/-- Value of a hexadecimal digit run. -/
def hexDigitsVal : List Char → ℕ → Option ℕ
  | [], acc => some acc
  | c :: cs, acc =>
    match hexVal c with
    | some d => hexDigitsVal cs (acc * 16 + d)
    | none => none

/-- Nonempty run of hexadecimal digits. -/
def parseHexDigits (cs : List Char) : Option ℕ :=
  if cs.isEmpty then none else hexDigitsVal cs 0

/-- Drop a leading `0x` / `0X` of a hex literal. -/
def dropHexMark : List Char → List Char
  | '0' :: 'x' :: cs => cs
  | '0' :: 'X' :: cs => cs
  | cs => cs

/-- Signed hex digits with optional `0x` mark. -/
def pyIntHexOfChars : List Char → Option ℤ
  | [] => none
  | c :: cs =>
    if c = '-' then (parseHexDigits (dropHexMark cs)).map (fun n => -(n : ℤ))
    else if c = '+' then (parseHexDigits (dropHexMark cs)).map (fun n => (n : ℤ))
    else (parseHexDigits (dropHexMark (c :: cs))).map (fun n => (n : ℤ))

/-- Python `int(s, 16)`: surrounding whitespace stripped, optional sign,
optional `0x`/`0X`, hexadecimal digits. -/
def pyIntHex (s : String) : Option ℤ := pyIntHexOfChars (pyStrip s).data

/-- Helper of `pySplitWs`: current (reversed) token is the accumulator. -/
def splitWsAux : List Char → List Char → List String
  | [], acc => if acc.isEmpty then [] else [String.mk acc.reverse]
  | c :: cs, acc =>
    if pyWs c then
      if acc.isEmpty then splitWsAux cs []
      else String.mk acc.reverse :: splitWsAux cs []
    else splitWsAux cs (c :: acc)

/-- Python `s.split()` (no argument): split on whitespace runs, dropping
empty tokens. -/
def pySplitWs (s : String) : List String := splitWsAux s.data []

/-- Helper of `splitOnChar`. -/
def splitOnCharAux (sep : Char) : List Char → List Char → List (List Char)
  | [], acc => [acc.reverse]
  | c :: cs, acc =>
    if c = sep then acc.reverse :: splitOnCharAux sep cs []
    else splitOnCharAux sep cs (c :: acc)

/-- Python `s.split(sep)` for a one-character separator. -/
def splitOnChar (sep : Char) (s : String) : List String :=
  (splitOnCharAux sep s.data []).map String.mk

/-- Python `s.rstrip(".")`. -/
def rstripDot (s : String) : String :=
  String.mk (s.data.reverse.dropWhile (fun c => c = '.')).reverse

/-! ### Wi-Fi reader (`get_wifi_signal`, telemetry_readers.py lines 34-71)

The file argument is `none` when `/proc/net/wireless` does not exist and
`some lines` for its `readlines()` content. The Python function mutates
a result dict initialised to two `None`s and returns it from the
exception handler on `ValueError`, so a parse failure keeps every field
assigned before the failing statement. -/

structure WifiReading where
  signal_level : Option ℤ
  signal_quality : Option ℚ
deriving DecidableEq, Repr

def get_wifi_signal (file : Option (List String)) : WifiReading :=
  match file with
  | none => { signal_level := none, signal_quality := none }
  | some lines =>
    if 2 < lines.length then
      let data_line := pySplitWs (lines.getD 2 "")
      if 4 ≤ data_line.length then
        let quality_str := rstripDot (data_line.getD 2 "")
        let signal_str := rstripDot (data_line.getD 3 "")
        match pyInt quality_str with
        | none => { signal_level := none, signal_quality := none }
        | some quality =>
          let sq := pyRound 2 ((quality : ℚ) / 70 * 100)
          match pyInt signal_str with
          | none => { signal_level := none, signal_quality := some sq }
          | some s => { signal_level := some s, signal_quality := some sq }
      else { signal_level := none, signal_quality := none }
    else { signal_level := none, signal_quality := none }

/-! ### Wi-Fi fallback selection (`get_all_telemetry`, lines 403-407)

`get_all_telemetry` calls `get_wifi_signal()`; only when that result's
`signal_level` is `None` does it call `get_wifi_signal_iwconfig()` and
replace the whole dict. The second component records whether the
fallback reader was invoked. -/

def wifi_with_fallback (primary fallback : WifiReading) : WifiReading × Bool :=
  if primary.signal_level = none then (fallback, true) else (primary, false)

/-! ### Uptime reader (`get_uptime`, lines 115-140)

Argument `none` models a missing `/proc/uptime`; `some content` its
`read()`. The result dict starts at `0.0/0.0`; `float(parts[0])` is
assigned before `float(parts[1])` is attempted, so a `ValueError` on the
second field returns a half-populated dict. -/

structure UptimeReading where
  uptime_seconds : ℚ
  idle_seconds : ℚ
deriving DecidableEq, Repr

def get_uptime (file : Option String) : UptimeReading :=
  match file with
  | none => { uptime_seconds := 0, idle_seconds := 0 }
  | some content =>
    let parts := pySplitWs (pyStrip content)
    if 2 ≤ parts.length then
      match pyFloat (parts.getD 0 "") with
      | none => { uptime_seconds := 0, idle_seconds := 0 }
      | some u =>
        match pyFloat (parts.getD 1 "") with
        | none => { uptime_seconds := u, idle_seconds := 0 }
        | some i => { uptime_seconds := u, idle_seconds := i }
    else { uptime_seconds := 0, idle_seconds := 0 }

/-! ### CPU usage reader (`get_cpu_usage`, lines 274-317)

The reader takes the first `/proc/stat` line twice. `parse_stat` is the
inner helper: its Python argument `parts` is the whitespace-split line
whose element 0 is the label `cpu`, so the guard `len(parts) < 5` is
`fields.length + 1 < 5` over the numeric fields after the label. The
claims quantify over numeric samples, so fields are given as integers
(a non-numeric token would raise `ValueError`, caught by the reader's
outer handler, yielding 0.0). -/

def parse_stat (fields : List ℤ) : ℤ × ℤ :=
  if fields.length + 1 < 5 then (0, 0)
  else (fields.sum, fields.getD 3 0)

def cpu_usage_calc (t1 i1 t2 i2 : ℤ) : ℚ :=
  let diff_total := t2 - t1
  let diff_idle := i2 - i1
  if diff_total = 0 then 0
  else pyRound 1 (((diff_total : ℚ) - (diff_idle : ℚ)) / (diff_total : ℚ) * 100)

def get_cpu_usage (line1 line2 : List ℤ) : ℚ :=
  let s1 := parse_stat line1
  let s2 := parse_stat line2
  cpu_usage_calc s1.1 s1.2 s2.1 s2.2

/-! ### Python exceptions that escape a reader -/

inductive PyErr where
  | valueError
  | indexError
deriving DecidableEq, Repr

instance {ε α : Type} [DecidableEq ε] [DecidableEq α] : DecidableEq (Except ε α) :=
  fun x y =>
    match x, y with
    | .ok a, .ok b => decidable_of_iff (a = b) (by simp)
    | .ok _, .error _ => isFalse (by simp)
    | .error _, .ok _ => isFalse (by simp)
    | .error e, .error f => decidable_of_iff (e = f) (by simp)

/-! ### Memory reader (`get_memory_info`, lines 166-210)

Argument `none` models a missing `/proc/meminfo`, `some lines` its
lines. The parse loop builds the `mem_data` dict first; conversions run
only after the loop, so a `ValueError` inside the loop is caught and
yields the all-zero default, while the `[0]` on an empty token list
after a colon raises `IndexError`, which the `except` clause at line 208
does not list and therefore escapes the reader. -/

structure MemoryInfo where
  total_mb : ℚ
  free_mb : ℚ
  available_mb : ℚ
  used_mb : ℚ
  used_percent : ℚ
deriving DecidableEq, Repr

def memoryDefault : MemoryInfo :=
  { total_mb := 0, free_mb := 0, available_mb := 0, used_mb := 0, used_percent := 0 }

/-- The `for line in f` loop of `get_memory_info` (lines 186-192): each
`Key: value` line contributes an entry; the first failing line aborts
with the Python exception it raises. -/
def mem_parse : List String → Except PyErr (List (String × ℤ))
  | [] => .ok []
  | line :: rest =>
    let parts := splitOnChar ':' line
    if parts.length = 2 then
      match pySplitWs (pyStrip (parts.getD 1 "")) with
      | [] => .error .indexError
      | tok :: _ =>
        match pyInt tok with
        | none => .error .valueError
        | some v => (mem_parse rest).map (fun d => (pyStrip (parts.getD 0 ""), v) :: d)
    else mem_parse rest

/-- Python dict lookup where later assignments win. -/
def dictGet (d : List (String × ℤ)) (k : String) : Option ℤ :=
  (d.reverse.find? (fun p => p.1 == k)).map (fun p => p.2)

/-- Conversion and derivation part of `get_memory_info` (lines 194-205),
taking the `mem_data` lookups of the three keys. -/
def mem_compute (memTotal memFree memAvailable : Option ℤ) : MemoryInfo :=
  let total_mb : ℚ := match memTotal with
    | some v => pyRound 2 ((v : ℚ) / 1024)
    | none => 0
  let free_mb : ℚ := match memFree with
    | some v => pyRound 2 ((v : ℚ) / 1024)
    | none => 0
  let available_mb : ℚ := match memAvailable with
    | some v => pyRound 2 ((v : ℚ) / 1024)
    | none => 0
  if 0 < total_mb ∧ 0 < available_mb then
    let used_mb := pyRound 2 (total_mb - available_mb)
    { total_mb := total_mb, free_mb := free_mb, available_mb := available_mb,
      used_mb := used_mb, used_percent := pyRound 2 (used_mb / total_mb * 100) }
  else
    { total_mb := total_mb, free_mb := free_mb, available_mb := available_mb,
      used_mb := 0, used_percent := 0 }

def get_memory_info (file : Option (List String)) : Except PyErr MemoryInfo :=
  match file with
  | none => .ok memoryDefault
  | some lines =>
    match mem_parse lines with
    | .error .valueError => .ok memoryDefault
    | .error .indexError => .error .indexError
    | .ok mem_data =>
      .ok (mem_compute (dictGet mem_data "MemTotal") (dictGet mem_data "MemFree")
        (dictGet mem_data "MemAvailable"))

/-! ### Throttling reader (`get_throttling_status`, lines 320-350)

`CmdResult.fail` models `subprocess.CalledProcessError` or
`FileNotFoundError` from running `vcgencmd get_throttled` — the only two
exception kinds the reader catches; `CmdResult.ok stdout` models a
successful run. `int(hex_str, 16)` on a malformed value raises
`ValueError`, which escapes the reader. -/

inductive CmdResult where
  | ok (stdout : String)
  | fail
deriving DecidableEq, Repr

structure ThrottlingStatus where
  is_throttled : Bool
  under_voltage : Bool
  frequency_capped : Bool
  overheated : Bool
deriving DecidableEq, Repr

def throttlingDefault : ThrottlingStatus :=
  { is_throttled := false, under_voltage := false,
    frequency_capped := false, overheated := false }

/-- Bitmask decode of lines 342-345. -/
def decode_throttled (status : ℤ) : ThrottlingStatus :=
  { under_voltage := Int.land status 1 != 0,
    frequency_capped := Int.land status 2 != 0,
    overheated := Int.land status 4 != 0,
    is_throttled := decide (0 < status) }

def get_throttling_status (cmd : CmdResult) : Except PyErr ThrottlingStatus :=
  match cmd with
  | .fail => .ok throttlingDefault
  | .ok output =>
    if output.data.contains '=' then
      let hex_str := pyStrip ((splitOnChar '=' output).getD 1 "")
      match pyIntHex hex_str with
      | none => .error .valueError
      | some status => .ok (decode_throttled status)
    else .ok throttlingDefault

/-! ### Network stats reader (`get_network_stats`, lines 353-393)

Argument `none` models a missing `/proc/net/dev`, `some lines` its
`readlines()`. `IndexError`/`ValueError` while reading the counters of
the matched line are caught at line 392 and give the placeholder (a
`PermissionError` on `open` would escape the reader, but the file-access
outcome is modelled only as present/absent here). -/

structure NetworkStats where
  interface : String
  bytes_recv : ℤ
  bytes_sent : ℤ
deriving DecidableEq, Repr

def networkDefault : NetworkStats :=
  { interface := "none", bytes_recv := 0, bytes_sent := 0 }

/-- `line.split(':')[0].strip()`. -/
def net_iface (line : String) : String :=
  pyStrip ((splitOnChar ':' line).getD 0 "")

/-- Counter extraction of a matched line; `none` models the
`IndexError`/`ValueError` cases which the reader catches. -/
def net_parse_data (line : String) : Option NetworkStats :=
  let parts := splitOnChar ':' line
  if 2 ≤ parts.length then
    let data := pySplitWs (parts.getD 1 "")
    if 9 ≤ data.length then
      match pyInt (data.getD 0 ""), pyInt (data.getD 8 "") with
      | some recv, some sent =>
        some { interface := net_iface line, bytes_recv := recv, bytes_sent := sent }
      | _, _ => none
    else none
  else none

def net_allowlist : List String := ["wlan0", "eth0", "en0"]

def get_network_stats (file : Option (List String)) : NetworkStats :=
  match file with
  | none => networkDefault
  | some lines =>
    let body := lines.drop 2
    match body.find? (fun line => net_allowlist.contains (net_iface line)) with
    | some line => (net_parse_data line).getD networkDefault
    | none =>
      match body.find? (fun line => net_iface line != "lo") with
      | some line => (net_parse_data line).getD networkDefault
      | none => networkDefault

/-! ### Theorems about the claims

The rational arithmetic of the model must reduce inside proofs by
`decide`, so the irreducibility marks of the `Rat` operations are
lifted locally. -/

section Claims

attribute [local semireducible] Rat.add Rat.mul Rat.inv Rat.sub Rat.ofScientific

/-- C1: in every run of the snapshot aggregator the primary Wi-Fi reader
is always consulted, the iwconfig fallback is invoked iff the primary
result's signal level is absent, in that case the whole Wi-Fi result is
the fallback result (no field of the primary merged in), and when the
primary reports a signal level the fallback is never invoked. -/
theorem C1_wifi_fallback (primary fallback : WifiReading) :
    ((wifi_with_fallback primary fallback).2 = true ↔ primary.signal_level = none) ∧
    (wifi_with_fallback primary fallback).1
      = (if primary.signal_level = none then fallback else primary) ∧
    (∀ lvl, primary.signal_level = some lvl →
      wifi_with_fallback primary fallback = (primary, false)) := by
  cases hp : primary.signal_level with
  | none => simp [wifi_with_fallback, hp]
  | some l => simp [wifi_with_fallback, hp]

/-- Witness for C1 at a primary reading that has a signal level. -/
theorem C1_wifi_fallback_witness :
    wifi_with_fallback { signal_level := some (-50), signal_quality := some 70 }
        { signal_level := none, signal_quality := none }
      = ({ signal_level := some (-50), signal_quality := some 70 }, false) :=
  (C1_wifi_fallback _ _).2.2 (-50) rfl

/-- C2: for two parsed aggregate-cpu samples — total the sum of all the
numeric fields of the line, idle the numeric field at 0-indexed
position 3 — the reader returns 0.0 when `diff_total = 0` and otherwise
`(diff_total - diff_idle) / diff_total * 100` rounded to 1 decimal. -/
theorem C2_cpu_usage_formula (line1 line2 : List ℤ)
    (h1 : 4 ≤ line1.length) (h2 : 4 ≤ line2.length) :
    get_cpu_usage line1 line2 =
      if line2.sum - line1.sum = 0 then 0
      else pyRound 1 ((((line2.sum - line1.sum : ℤ) : ℚ)
              - ((line2.getD 3 0 - line1.getD 3 0 : ℤ) : ℚ))
            / ((line2.sum - line1.sum : ℤ) : ℚ) * 100) := by
  unfold get_cpu_usage parse_stat cpu_usage_calc
  rw [if_neg (show ¬ line1.length + 1 < 5 by omega),
    if_neg (show ¬ line2.length + 1 < 5 by omega)]

/-- Witness for C2: a pair of concrete four-field samples. -/
theorem C2_cpu_usage_formula_witness :
    get_cpu_usage [10, 0, 0, 5] [30, 0, 0, 10] = 80 := by
  rw [C2_cpu_usage_formula [10, 0, 0, 5] [30, 0, 0, 10] (by decide) (by decide)]
  decide

/-- Casting `Int.land` to the naturals on nonnegative arguments. -/
lemma int_land_ofNat (m k : ℕ) : Int.land (m : ℤ) (k : ℤ) = ((m &&& k : ℕ) : ℤ) := rfl

/-- Masking with a power of two tests the corresponding bit. -/
lemma land_pow_bne (n i k : ℕ) (hk : (2:ℕ) ^ i = k) :
    ((Int.land (n : ℤ) (k : ℤ)) != 0) = n.testBit i := by
  subst hk
  rw [int_land_ofNat, Nat.and_two_pow]
  cases h : n.testBit i <;> simp [bne]

/-- C4: for every bitmask value, under_voltage holds iff bit 0 is set,
frequency_capped iff bit 1, overheated iff bit 2, and is_throttled iff
the value is positive; bitmask 0x50000 gives is_throttled only, 0x0
gives all four flags false, and an absent tool or non-zero exit gives
all four flags false. -/
theorem C4_throttling_bits (n : ℕ) :
    decode_throttled (n : ℤ)
      = { is_throttled := decide (0 < n),
          under_voltage := n.testBit 0,
          frequency_capped := n.testBit 1,
          overheated := n.testBit 2 } ∧
    get_throttling_status (.ok "throttled=0x50000\n")
      = .ok { is_throttled := true, under_voltage := false,
              frequency_capped := false, overheated := false } ∧
    get_throttling_status (.ok "throttled=0x0\n") = .ok throttlingDefault ∧
    get_throttling_status .fail = .ok throttlingDefault := by
  refine ⟨?_, by decide, by decide, rfl⟩
  unfold decode_throttled
  congr 1
  · rw [decide_eq_decide]
    exact_mod_cast Iff.rfl
  · exact land_pow_bne n 0 1 (by norm_num)
  · exact land_pow_bne n 1 2 (by norm_num)
  · exact land_pow_bne n 2 4 (by norm_num)

/-- C5 is wrong about the code: the throttling reader catches only
`CalledProcessError` and `FileNotFoundError` (line 348), so on a
successful command whose stdout is `throttled=zz` the `int(hex_str, 16)`
call raises an uncaught `ValueError` that propagates to the caller. -/
theorem C5_throttling_uncaught :
    get_throttling_status (.ok "throttled=zz\n") = .error .valueError := by decide

/-- C7 is falsified at a line with exactly 4 numeric fields after the
label: `len(parts) < 5` counts the `cpu` label itself, so such a line is
parsed normally to `(1+2+3+4, 4)`, not treated as `(0, 0)`. -/
theorem C7_parse_stat_counterexample :
    parse_stat [1, 2, 3, 4] = (10, 4) ∧ parse_stat [1, 2, 3, 4] ≠ (0, 0) := by decide

/-- C7 amended: a cpu line with fewer than 4 numeric fields after the
label parses as `(0, 0)`; with at least 4 numeric fields it is parsed
normally (total = sum of the fields, idle = field at position 3). -/
theorem C7_parse_stat_amended (fields : List ℤ) :
    parse_stat fields =
      if fields.length < 4 then (0, 0) else (fields.sum, fields.getD 3 0) := by
  unfold parse_stat
  by_cases h : fields.length < 4
  · rw [if_pos (by omega), if_pos h]
  · rw [if_neg (by omega), if_neg h]

/-- C3: the memory reader converts MemTotal, MemFree, MemAvailable from
kB to MB dividing by 1024 and rounding to 2 decimals; it derives
used_mb = total_mb - available_mb and used_percent = used_mb / total_mb
* 100 (each rounded from the already-rounded inputs) iff both total_mb
and available_mb are strictly positive, and otherwise leaves them 0.0;
on MemTotal 1000000 kB and MemAvailable 250000 kB it yields 976.56,
244.14, 732.42 and 75.0. -/
theorem C3_memory_conversion (mt mf ma : Option ℤ) :
    ((mem_compute mt mf ma).total_mb
        = (mt.map (fun v => pyRound 2 ((v : ℚ) / 1024))).getD 0) ∧
    ((mem_compute mt mf ma).free_mb
        = (mf.map (fun v => pyRound 2 ((v : ℚ) / 1024))).getD 0) ∧
    ((mem_compute mt mf ma).available_mb
        = (ma.map (fun v => pyRound 2 ((v : ℚ) / 1024))).getD 0) ∧
    ((mem_compute mt mf ma).used_mb =
      if 0 < (mem_compute mt mf ma).total_mb ∧ 0 < (mem_compute mt mf ma).available_mb
      then pyRound 2 ((mem_compute mt mf ma).total_mb - (mem_compute mt mf ma).available_mb)
      else 0) ∧
    ((mem_compute mt mf ma).used_percent =
      if 0 < (mem_compute mt mf ma).total_mb ∧ 0 < (mem_compute mt mf ma).available_mb
      then pyRound 2 ((mem_compute mt mf ma).used_mb / (mem_compute mt mf ma).total_mb * 100)
      else 0) ∧
    get_memory_info (some ["MemTotal: 1000000 kB", "MemAvailable: 250000 kB"])
      = .ok { total_mb := 976.56, free_mb := 0, available_mb := 244.14,
              used_mb := 732.42, used_percent := 75 } := by
  refine ⟨?_, ?_, ?_, ?_, ?_, by decide⟩ <;>
    obtain _ | t := mt <;> obtain _ | f := mf <;> obtain _ | a := ma <;>
      simp only [mem_compute, Option.map_none, Option.map_some, Option.getD] <;>
      split <;> simp_all

/-- C6 is falsified by a data line whose quality field is numeric but
whose signal field is not: `result["signal_quality"]` is assigned at
line 63 before `int(signal_str)` raises at line 66, and the handler
returns the half-populated dict. -/
theorem C6_wifi_partial_counterexample :
    (get_wifi_signal (some ["h1\n", "h2\n", "wlan0: 0000 50. -6x. 0 0\n"])).signal_quality
        = some 71.43 ∧
    (get_wifi_signal (some ["h1\n", "h2\n", "wlan0: 0000 50. -6x. 0 0\n"])).signal_level
        = none := by decide

/-- In the primary Wi-Fi reader an absent quality forces an absent
level: the quality is assigned before the level is parsed. -/
lemma wifi_quality_none_level_none (file : Option (List String)) :
    (get_wifi_signal file).signal_quality = none →
    (get_wifi_signal file).signal_level = none := by
  obtain _ | lines := file
  · exact fun _ => rfl
  simp only [get_wifi_signal]
  by_cases h2 : 2 < lines.length
  · rw [if_pos h2]
    by_cases h4 : 4 ≤ (pySplitWs (lines.getD 2 "")).length
    · rw [if_pos h4]
      cases hq : pyInt (rstripDot ((pySplitWs (lines.getD 2 "")).getD 2 "")) with
      | none => exact fun _ => rfl
      | some q =>
        cases hs : pyInt (rstripDot ((pySplitWs (lines.getD 2 "")).getD 3 "")) with
        | none => exact fun _ => rfl
        | some s => simp
    · rw [if_neg h4]
      exact fun _ => rfl
  · rw [if_neg h2]
    exact fun _ => rfl

/-- C6 amended: a missing file, too few lines, too few fields, or a
non-numeric quality field yields both fields absent; a numeric quality
followed by a non-numeric signal field yields the signal level absent
but the quality populated; a populated signal level always comes with a
populated quality. -/
theorem C6_wifi_errors_amended (file : Option (List String)) :
    (file = none → get_wifi_signal file = ⟨none, none⟩) ∧
    (∀ lines, file = some lines → lines.length ≤ 2 →
        get_wifi_signal file = ⟨none, none⟩) ∧
    (∀ lines, file = some lines → (pySplitWs (lines.getD 2 "")).length < 4 →
        get_wifi_signal file = ⟨none, none⟩) ∧
    (∀ lines, file = some lines →
        pyInt (rstripDot ((pySplitWs (lines.getD 2 "")).getD 2 "")) = none →
        get_wifi_signal file = ⟨none, none⟩) ∧
    (∀ lines, file = some lines → 2 < lines.length →
        4 ≤ (pySplitWs (lines.getD 2 "")).length →
        ∀ q, pyInt (rstripDot ((pySplitWs (lines.getD 2 "")).getD 2 "")) = some q →
        pyInt (rstripDot ((pySplitWs (lines.getD 2 "")).getD 3 "")) = none →
        get_wifi_signal file = ⟨none, some (pyRound 2 ((q : ℚ) / 70 * 100))⟩) ∧
    (∀ lvl, (get_wifi_signal file).signal_level = some lvl →
        (get_wifi_signal file).signal_quality.isSome) := by
  have hlast : ∀ lvl, (get_wifi_signal file).signal_level = some lvl →
      (get_wifi_signal file).signal_quality.isSome := by
    intro lvl hlvl
    cases hq : (get_wifi_signal file).signal_quality with
    | none =>
      rw [wifi_quality_none_level_none file hq] at hlvl
      exact Option.noConfusion hlvl
    | some q => rfl
  obtain _ | lines := file
  · exact ⟨fun _ => rfl, fun l hl => Option.noConfusion hl,
      fun l hl => Option.noConfusion hl, fun l hl => Option.noConfusion hl,
      fun l hl => Option.noConfusion hl, hlast⟩
  refine ⟨fun h => Option.noConfusion h, ?_, ?_, ?_, ?_, hlast⟩
  · intro l hl hlen
    injection hl with hl
    subst hl
    simp only [get_wifi_signal]
    rw [if_neg (by omega)]
  · intro l hl hdl
    injection hl with hl
    subst hl
    simp only [get_wifi_signal]
    by_cases h2 : 2 < lines.length
    · rw [if_pos h2, if_neg (by omega)]
    · rw [if_neg h2]
  · intro l hl hq
    injection hl with hl
    subst hl
    simp only [get_wifi_signal]
    by_cases h2 : 2 < lines.length
    · rw [if_pos h2]
      by_cases h4 : 4 ≤ (pySplitWs (lines.getD 2 "")).length
      · rw [if_pos h4, hq]
      · rw [if_neg h4]
    · rw [if_neg h2]
  · intro l hl h2 h4 q hq hs
    injection hl with hl
    subst hl
    simp only [get_wifi_signal]
    rw [if_pos h2, if_pos h4, hq, hs]

/-- Witness for C6 amended: a one-line file yields both fields absent. -/
theorem C6_wifi_errors_amended_witness :
    get_wifi_signal (some ["only\n"]) = ⟨none, none⟩ :=
  (C6_wifi_errors_amended (some ["only\n"])).2.1 ["only\n"] rfl (by decide)

/-- C8 is falsified by a first field that parses while the second does
not: `result["uptime_seconds"]` is assigned at line 134 before
`float(parts[1])` raises at line 135, and the handler returns the
half-populated dict. -/
theorem C8_uptime_partial_counterexample :
    get_uptime (some "123.5 abc\n") = { uptime_seconds := 123.5, idle_seconds := 0 } ∧
    get_uptime (some "123.5 abc\n") ≠ { uptime_seconds := 0, idle_seconds := 0 } := by decide

/-- C8 amended: a missing file, fewer than two fields, or a non-numeric
first field yields the zero-default pair; a numeric first field followed
by a non-numeric second field yields uptime_seconds populated with
idle_seconds 0.0; two numeric fields parse normally. -/
theorem C8_uptime_amended (file : Option String) :
    (file = none → get_uptime file = ⟨0, 0⟩) ∧
    (∀ content, file = some content → (pySplitWs (pyStrip content)).length < 2 →
        get_uptime file = ⟨0, 0⟩) ∧
    (∀ content, file = some content →
        pyFloat ((pySplitWs (pyStrip content)).getD 0 "") = none →
        get_uptime file = ⟨0, 0⟩) ∧
    (∀ content, file = some content → 2 ≤ (pySplitWs (pyStrip content)).length →
        ∀ u, pyFloat ((pySplitWs (pyStrip content)).getD 0 "") = some u →
        pyFloat ((pySplitWs (pyStrip content)).getD 1 "") = none →
        get_uptime file = ⟨u, 0⟩) ∧
    (∀ content, file = some content → 2 ≤ (pySplitWs (pyStrip content)).length →
        ∀ u i, pyFloat ((pySplitWs (pyStrip content)).getD 0 "") = some u →
        pyFloat ((pySplitWs (pyStrip content)).getD 1 "") = some i →
        get_uptime file = ⟨u, i⟩) := by
  obtain _ | content := file
  · exact ⟨fun _ => rfl, fun c hc => Option.noConfusion hc,
      fun c hc => Option.noConfusion hc, fun c hc => Option.noConfusion hc,
      fun c hc => Option.noConfusion hc⟩
  refine ⟨fun h => Option.noConfusion h, ?_, ?_, ?_, ?_⟩
  · intro c hc hlen
    injection hc with hc
    subst hc
    simp only [get_uptime]
    rw [if_neg (by omega)]
  · intro c hc hu
    injection hc with hc
    subst hc
    simp only [get_uptime]
    by_cases h2 : 2 ≤ (pySplitWs (pyStrip content)).length
    · rw [if_pos h2, hu]
    · rw [if_neg h2]
  · intro c hc h2 u hu hi
    injection hc with hc
    subst hc
    simp only [get_uptime]
    rw [if_pos h2, hu, hi]
  · intro c hc h2 u i hu hi
    injection hc with hc
    subst hc
    simp only [get_uptime]
    rw [if_pos h2, hu, hi]

/-- Witness for C8 amended: a non-numeric first field yields zeros. -/
theorem C8_uptime_amended_witness :
    get_uptime (some "abc 1.0\n") = ⟨0, 0⟩ :=
  (C8_uptime_amended (some "abc 1.0\n")).2.2.1 "abc 1.0\n" rfl (by decide)

/-- C9 is falsified by a pair of well-formed samples whose counters are
not monotone: the usage formula then leaves the 0-100 range. -/
theorem C9_cpu_range_counterexample :
    get_cpu_usage [10, 0, 0, 0] [0, 0, 0, 11] = -1000 ∧
    ¬ (0 ≤ get_cpu_usage [10, 0, 0, 0] [0, 0, 0, 11]) := by decide

/-- The interface name of a successfully parsed counters line is the
line's own interface field. -/
lemma net_parse_data_interface (line : String) (r : NetworkStats)
    (h : net_parse_data line = some r) : r.interface = net_iface line := by
  unfold net_parse_data at h
  by_cases hp : 2 ≤ (splitOnChar ':' line).length
  · rw [if_pos hp] at h
    by_cases hd : 9 ≤ (pySplitWs ((splitOnChar ':' line).getD 1 "")).length
    · rw [if_pos hd] at h
      cases h0 : pyInt ((pySplitWs ((splitOnChar ':' line).getD 1 "")).getD 0 "") with
      | none => rw [h0] at h; exact Option.noConfusion h
      | some recv =>
        cases h8 : pyInt ((pySplitWs ((splitOnChar ':' line).getD 1 "")).getD 8 "") with
        | none => rw [h0, h8] at h; exact Option.noConfusion h
        | some sent =>
          rw [h0, h8] at h
          injection h with h
          subst h
          rfl
    · rw [if_neg hd] at h
      exact Option.noConfusion h
  · rw [if_neg hp] at h
    exact Option.noConfusion h

/-- C10: the network stats reader never reports the loopback
interface: the returned interface name is never "lo", and when every
interface line of the file body is "lo" the reader returns the
placeholder result instead of the loopback counters. -/
theorem C10_network_no_loopback (file : Option (List String)) :
    (get_network_stats file).interface ≠ "lo" ∧
    (∀ lines, file = some lines →
        (∀ line ∈ lines.drop 2, net_iface line = "lo") →
        get_network_stats file = networkDefault) := by
  constructor
  · obtain _ | lines := file
    · decide
    · simp only [get_network_stats]
      cases hf : (lines.drop 2).find? (fun line => net_allowlist.contains (net_iface line)) with
      | some line =>
        have hp := List.find?_some hf
        show ((net_parse_data line).getD networkDefault).interface ≠ "lo"
        cases hd : net_parse_data line with
        | none => decide
        | some r =>
          have hr := net_parse_data_interface line r hd
          simp only [Option.getD_some]
          rw [hr]
          have hmem : net_iface line ∈ net_allowlist := by
            simpa using hp
          simp only [net_allowlist, List.mem_cons, List.not_mem_nil, or_false] at hmem
          rcases hmem with h | h | h <;> rw [h] <;> decide
      | none =>
        cases hf2 : (lines.drop 2).find? (fun line => net_iface line != "lo") with
        | some line =>
          have hp2 := List.find?_some hf2
          rw [bne_iff_ne] at hp2
          show ((net_parse_data line).getD networkDefault).interface ≠ "lo"
          cases hd : net_parse_data line with
          | none => decide
          | some r =>
            have hr := net_parse_data_interface line r hd
            simp only [Option.getD_some]
            rw [hr]
            exact hp2
        | none => decide
  · intro lines hfile hall
    subst hfile
    simp only [get_network_stats]
    have h1 : (lines.drop 2).find? (fun line => net_allowlist.contains (net_iface line))
        = none := by
      rw [List.find?_eq_none]
      intro a ha
      simp [hall a ha, net_allowlist]
    have h2 : (lines.drop 2).find? (fun line => net_iface line != "lo") = none := by
      rw [List.find?_eq_none]
      intro a ha
      simp [hall a ha]
    rw [h1, h2]

/-- Witness for C10 at a file whose only interface is "lo". -/
theorem C10_network_no_loopback_witness :
    (get_network_stats (some ["h1", "h2", "lo: 1 2 3 4 5 6 7 8 9 10"])).interface ≠ "lo" ∧
    get_network_stats (some ["h1", "h2", "lo: 1 2 3 4 5 6 7 8 9 10"]) = networkDefault :=
  ⟨(C10_network_no_loopback _).1,
    (C10_network_no_loopback _).2 _ rfl (by decide)⟩

/-- Any integer lower bound of a rational bounds its half-even rounding. -/
lemma le_roundHalfEven (a : ℤ) (x : ℚ) (h : (a : ℚ) ≤ x) : a ≤ roundHalfEven x := by
  have hf : a ≤ ⌊x⌋ := Int.le_floor.mpr h
  simp only [roundHalfEven]
  split_ifs <;> omega

/-- Any integer upper bound of a rational bounds its half-even rounding. -/
lemma roundHalfEven_le (b : ℤ) (x : ℚ) (h : x ≤ (b : ℚ)) : roundHalfEven x ≤ b := by
  have hfl : ⌊x⌋ ≤ b := by
    have h2 := Int.floor_le_floor h
    rwa [Int.floor_intCast] at h2
  have hstep : ¬(x - ⌊x⌋ < 1/2) → ⌊x⌋ + 1 ≤ b := by
    intro h1
    have hx : (⌊x⌋ : ℚ) < x := by
      have h2 := not_lt.mp h1
      linarith
    have h3 : (⌊x⌋ : ℚ) < (b : ℚ) := lt_of_lt_of_le hx h
    have h4 : ⌊x⌋ < b := by exact_mod_cast h3
    omega
  simp only [roundHalfEven]
  split_ifs with h1 h2 h3
  · exact hfl
  · exact hstep h1
  · exact hfl
  · exact hstep h1

/-- Integer bounds survive Python rounding to `k` decimals. -/
lemma pyRound_bounds (k : ℕ) (x : ℚ) (a b : ℤ) (ha : (a : ℚ) ≤ x) (hb : x ≤ (b : ℚ)) :
    (a : ℚ) ≤ pyRound k x ∧ pyRound k x ≤ (b : ℚ) := by
  unfold pyRound
  have h10 : (0 : ℚ) < 10 ^ k := by positivity
  have ha2 : ((a * 10 ^ k : ℤ) : ℚ) ≤ x * 10 ^ k := by
    push_cast
    exact mul_le_mul_of_nonneg_right ha (by positivity)
  have hb2 : x * 10 ^ k ≤ ((b * 10 ^ k : ℤ) : ℚ) := by
    push_cast
    exact mul_le_mul_of_nonneg_right hb (by positivity)
  have h1 := le_roundHalfEven (a * 10 ^ k) (x * 10 ^ k) ha2
  have h2 := roundHalfEven_le (b * 10 ^ k) (x * 10 ^ k) hb2
  constructor
  · rw [le_div_iff₀ h10]
    exact_mod_cast h1
  · rw [div_le_iff₀ h10]
    exact_mod_cast h2

/-- Position-wise dominance of integer lists gives dominance of sums. -/
lemma sum_le_sum_of_getD (l1 l2 : List ℤ) (hlen : l1.length = l2.length)
    (hmono : ∀ i, i < l1.length → l1.getD i 0 ≤ l2.getD i 0) : l1.sum ≤ l2.sum := by
  induction l1 generalizing l2 with
  | nil =>
    cases l2 with
    | nil => simp
    | cons b t2 => simp at hlen
  | cons a t1 ih =>
    cases l2 with
    | nil => simp at hlen
    | cons b t2 =>
      have h0 : a ≤ b := by simpa using hmono 0 (by simp)
      have ht : t1.sum ≤ t2.sum := by
        refine ih t2 (by simpa using hlen) (fun i hi => ?_)
        simpa using hmono (i + 1) (by simpa using Nat.succ_lt_succ hi)
      simp only [List.sum_cons]
      omega

/-- Position-wise dominance also bounds a sum with one position removed. -/
lemma sum_sub_getD_mono (l1 l2 : List ℤ) (k : ℕ) (hlen : l1.length = l2.length)
    (hmono : ∀ i, i < l1.length → l1.getD i 0 ≤ l2.getD i 0) :
    l1.sum - l1.getD k 0 ≤ l2.sum - l2.getD k 0 := by
  induction l1 generalizing l2 k with
  | nil =>
    cases l2 with
    | nil => simp
    | cons b t2 => simp at hlen
  | cons a t1 ih =>
    cases l2 with
    | nil => simp at hlen
    | cons b t2 =>
      have h0 : a ≤ b := by simpa using hmono 0 (by simp)
      have hlen2 : t1.length = t2.length := by simpa using hlen
      have hm2 : ∀ i, i < t1.length → t1.getD i 0 ≤ t2.getD i 0 := fun i hi => by
        simpa using hmono (i + 1) (by simpa using Nat.succ_lt_succ hi)
      cases k with
      | zero =>
        simp only [List.sum_cons, List.getD_cons_zero]
        have := sum_le_sum_of_getD t1 t2 hlen2 hm2
        omega
      | succ k =>
        simp only [List.sum_cons, List.getD_cons_succ]
        have := ih t2 k hlen2 hm2
        omega

/-- C9 amended: for every pair of samples whose counters are
cumulative — each numeric field of the second read at least the first's,
as the kernel's monotone counters guarantee — the returned usage lies
between 0.0 and 100.0 inclusive. -/
theorem C9_cpu_range_amended (l1 l2 : List ℤ) (hlen : l1.length = l2.length)
    (hmono : ∀ i, i < l1.length → l1.getD i 0 ≤ l2.getD i 0) :
    0 ≤ get_cpu_usage l1 l2 ∧ get_cpu_usage l1 l2 ≤ 100 := by
  unfold get_cpu_usage parse_stat cpu_usage_calc
  by_cases hsmall : l1.length + 1 < 5
  · rw [if_pos (show l1.length + 1 < 5 from hsmall),
      if_pos (show l2.length + 1 < 5 by omega)]
    norm_num
  · rw [if_neg (show ¬ l1.length + 1 < 5 from hsmall),
      if_neg (show ¬ l2.length + 1 < 5 by omega)]
    dsimp only
    by_cases hdt : l2.sum - l1.sum = 0
    · rw [if_pos hdt]
      norm_num
    · rw [if_neg hdt]
      have hT : l1.sum ≤ l2.sum := sum_le_sum_of_getD l1 l2 hlen hmono
      have hI : l1.getD 3 0 ≤ l2.getD 3 0 := hmono 3 (by omega)
      have hTI : l1.sum - l1.getD 3 0 ≤ l2.sum - l2.getD 3 0 :=
        sum_sub_getD_mono l1 l2 3 hlen hmono
      set dt : ℤ := l2.sum - l1.sum with hdtdef
      set di : ℤ := l2.getD 3 0 - l1.getD 3 0 with hdidef
      have h1 : 0 < dt := by omega
      have h2 : 0 ≤ di := by omega
      have h3 : di ≤ dt := by omega
      have hdtq : (0 : ℚ) < (dt : ℚ) := by exact_mod_cast h1
      have hx0 : (0 : ℚ) ≤ ((dt : ℚ) - (di : ℚ)) / (dt : ℚ) * 100 := by
        apply mul_nonneg _ (by norm_num)
        apply div_nonneg _ hdtq.le
        have h4 : (di : ℚ) ≤ (dt : ℚ) := by exact_mod_cast h3
        linarith
      have hx100 : ((dt : ℚ) - (di : ℚ)) / (dt : ℚ) * 100 ≤ 100 := by
        rw [div_mul_eq_mul_div, div_le_iff₀ hdtq]
        have h5 : (0 : ℚ) ≤ (di : ℚ) := by exact_mod_cast h2
        nlinarith
      have hb := pyRound_bounds 1 (((dt : ℚ) - (di : ℚ)) / (dt : ℚ) * 100) 0 100
        (by exact_mod_cast hx0) (by exact_mod_cast hx100)
      constructor
      · have := hb.1
        exact_mod_cast this
      · have := hb.2
        exact_mod_cast this

/-- Witness for C9 amended at a concrete monotone pair. -/
theorem C9_cpu_range_amended_witness :
    0 ≤ get_cpu_usage [3, 0, 0, 2] [7, 0, 0, 4] ∧
    get_cpu_usage [3, 0, 0, 2] [7, 0, 0, 4] ≤ 100 :=
  C9_cpu_range_amended [3, 0, 0, 2] [7, 0, 0, 4] rfl (by decide)

end Claims

end Telemetry
